import Mathlib

/-!
Shallow embedding of `src/deep_learning/run_gridsearch.py`.

The script is a sequential grid-search driver: it builds an `Arguments`
record, then for each input-channel specifier in `["R", "RG"]` and each
synthetic ratio in `[0.0, 0.25, 0.5, 0.75, 1.0]` it constructs a fresh
`CustomUNet` model and calls `run_train.main(args, model)`, reduces the
returned history to its best validation-dice epoch, and prints a metric
line.  A `RuntimeError` raised inside the per-point `try` block (by model
construction or by training) is caught and logged; any other exception
propagates and kills the sweep before the duration footer is printed.

The two external collaborators (`CustomUNet` and `run_train.main`) are
modelled as oracle fields of an `Env` record; since the driver may observe
different behaviour at different sweep points, the oracles also receive the
index of the sweep point at which they are invoked (a standard
determinization of a stateful collaborator).  Console output and
collaborator invocations are recorded in a single ordered trace of
`Event`s; machine floats of the script are modelled as exact rationals.
-/

namespace RunGridsearch

/-- Python exceptions, as far as the driver distinguishes them: the
`RuntimeError` class (caught at lines 69 and 91) versus any other
exception class (which propagates). -/
inductive PyErr where
  | runtimeError (msg : String)
  | other (cls : String) (msg : String)
deriving DecidableEq

/-- Whether an exception is of class `RuntimeError` (the only class the
driver catches). -/
def isRTE : PyErr → Bool
  | .runtimeError _ => true
  | .other _ _ => false

/-- The `Arguments` record built at lines 26-45 of the script.  Floats are
modelled as rationals, `None` as `Option.none`. -/
structure Arguments where
  batch_size : ℕ
  data_aug : Bool
  data_dir : String
  epochs : ℕ
  eval_test : Bool
  input_channels : String
  learning_rate : ℚ
  model_dir : Option String
  no_gpu : Bool
  save_fig : Bool
  scale_crop : ℚ
  seed : ℕ
  synthetic_data : Bool
  synthetic_only : Bool
  synthetic_ratio : Option ℚ
  timeit : Bool
  use_masks : Bool
  verbose : Bool
deriving DecidableEq

/-- A training history: a mapping from metric name to the ordered sequence
of per-epoch values (the dict returned by `run_train.main`). -/
def History : Type := String → List ℚ

/-- Python `"%.1f" % q`: fixed-point formatting with one decimal digit
(used to build the metric keys `"val_lossC%.1f"` and `"val_diC%.1f"`).
The rounded integer `n` is `⌊q * 10 + 1/2⌋`, computed on numerator and
denominator so that the kernel can evaluate it (see `fmtFix1_round`);
rounding at exact halves is irrelevant for the values the script uses. -/
def fmtFix1 (q : ℚ) : String :=
  let n : ℤ := Int.fdiv (q.num * 20 + q.den) (2 * q.den)
  let a : ℕ := n.natAbs
  (if n < 0 then "-" else "") ++ toString (a / 10) ++ "." ++ toString (a % 10)

/-- `np.argmax` on a list of rationals: the index of the first occurrence
of the maximum (ties are resolved towards the smaller index); `0` on the
empty list, which the script never reaches because `np.argmax` of an empty
array raises first (modelled separately in `tryBody`). -/
def argmax : List ℚ → ℕ
  | [] => 0
  | [_] => 0
  | v :: w :: vs =>
    if (w :: vs).getD (argmax (w :: vs)) 0 ≤ v then 0 else argmax (w :: vs) + 1

/-- Line 18: `n_epochs = 10`. -/
def n_epochs : ℕ := 10

/-- Line 19: `synth_ratios = [0.0, 0.25, 0.5, 0.75, 1.0]` (the floats are
exactly these rationals; `mkRat` is used so the kernel can evaluate). -/
def synth_ratios : List ℚ := [0, mkRat 1 4, mkRat 1 2, mkRat 3 4, 1]

/-- The `Arguments(...)` literal of lines 26-45. -/
def baseArgs : Arguments where
  batch_size := 32
  data_aug := false
  data_dir := "/data/talabot/dataset_cv-annotated/"
  epochs := n_epochs
  eval_test := false
  input_channels := "R"
  learning_rate := mkRat 1 1000
  model_dir := none
  no_gpu := false
  save_fig := false
  scale_crop := 4
  seed := 1
  synthetic_data := false
  synthetic_only := false
  synthetic_ratio := none
  timeit := false
  use_masks := false
  verbose := false

/-- The configuration at the start of the sweep: lines 47-48 set
`synthetic_data = True` and `data_aug = True` before any run. -/
def argsStart : Arguments :=
  { baseArgs with synthetic_data := true, data_aug := true }

/-- The configuration passed to the trainer at sweep point `k`
(`0 ≤ k < 5`: first loop with channels `"R"`, `5 ≤ k < 10`: second loop
with channels `"RG"`; the inner ratio axis restarts at each group). -/
def argsAt (k : ℕ) : Arguments :=
  { argsStart with
      input_channels := if k < 5 then "R" else "RG",
      synthetic_ratio := some (synth_ratios.getD (k % 5) 0) }

/-- One printed line of the script (timestamps and float formatting carry
no information the claims mention and are elided; numeric payloads are
kept exactly). -/
inductive Line where
  | startHeader (epochs : ℕ)
  | dataAugMsg
  | channelHeader (ch : String)
  | ratioLabel (r : ℚ)
  | metrics (loss sc lossC dice diC : ℚ)
  | runtimeErrorMsg (msg : String)
  | ending
  | durationMsg (hrs mins secs : ℚ)
deriving DecidableEq

/-- One observable event of a driver execution: a printed line, a
`CustomUNet(...)` construction call (with the sweep-point index and the
four constructor arguments), or a `run_train.main(args, model)` call. -/
inductive Event (M : Type) where
  | out (l : Line)
  | constructCall (k inCh uDepth out1 : ℕ) (batchnorm : Bool)
  | trainCall (k : ℕ) (a : Arguments) (m : M)
deriving DecidableEq

/-- The external collaborators and the clock, as oracles.  `M` is the abstract
type of model instances.  Both oracles receive the sweep-point index `k`
so that behaviour may differ between points. -/
structure Env (M : Type) where
  construct : ℕ → ℕ → ℕ → ℕ → Bool → Except PyErr M
  train : ℕ → Arguments → M → Except PyErr History
  startTime : ℚ
  endTime : ℚ

/-- Python `x // y` on floats: the floor of the quotient, computed on
numerators and denominators so that the kernel can evaluate it; equals
`⌊x / y⌋` for `y > 0` (lemma `pyFloorDiv_eq_floor`). -/
def pyFloorDiv (x y : ℚ) : ℚ :=
  ((Int.fdiv (x.num * y.den) (x.den * y.num) : ℤ) : ℚ)

/-- Python `x % y` on floats: `x - y * (x // y)`, computed on numerators
and denominators so that the kernel can evaluate it (lemma
`pyFMod_eq`). -/
def pyFMod (x y : ℚ) : ℚ :=
  Rat.divInt
    (x.num * y.den - y.num * Int.fdiv (x.num * y.den) (x.den * y.num) * x.den)
    (x.den * y.den)

/-- The body of the `try` block (lines 56-67 resp. 78-89) at sweep point
`k` with configuration `a`: construct the model, train, find the best
epoch (`np.argmax` of `val_dice`), read the four metrics there.  Returns
the emitted events, the freshly constructed model (if construction
succeeded), and the raised exception (if any): an empty `val_dice` makes
`np.argmax` raise `ValueError`, an out-of-range best epoch makes the
metric reads raise `IndexError`. -/
def tryBody {M : Type} (env : Env M) (k : ℕ) (a : Arguments) :
    List (Event M) × Option M × Option PyErr :=
  let cc : Event M := .constructCall k a.input_channels.length 4 16 true
  match env.construct k a.input_channels.length 4 16 true with
  | .error e => ([cc], none, some e)
  | .ok m =>
    match env.train k a m with
    | .error e => ([cc, .trainCall k a m], some m, some e)
    | .ok h =>
      let dice := h "val_dice"
      if dice = [] then
        ([cc, .trainCall k a m], some m,
         some (.other "ValueError" "attempt to get argmax of an empty sequence"))
      else
        let be := argmax dice
        let lossL := h "val_loss"
        let lossCL := h ("val_lossC" ++ fmtFix1 a.scale_crop)
        let diCL := h ("val_diC" ++ fmtFix1 a.scale_crop)
        if be < lossL.length ∧ be < lossCL.length ∧ be < diCL.length then
          ([cc, .trainCall k a m,
            .out (.metrics (lossL.getD be 0) a.scale_crop (lossCL.getD be 0)
                    (dice.getD be 0) (diCL.getD be 0))],
           some m, none)
        else
          ([cc, .trainCall k a m], some m,
           some (.other "IndexError" "list index out of range"))

/-- One inner-loop iteration (lines 53-70 resp. 75-92) at sweep point `k`:
set `synthetic_ratio`, print the ratio label, run the `try` body, catch a
`RuntimeError` (printing the failure line) and let any other exception
propagate.  Returns the emitted events, the value of the `model` variable
after the iteration, the configuration after the iteration, and the
propagating exception (if any). -/
def step {M : Type} (env : Env M) (k : ℕ) (a : Arguments) (mOld : Option M)
    (r : ℚ) : List (Event M) × Option M × Arguments × Option PyErr :=
  let a' := { a with synthetic_ratio := some r }
  let tb := tryBody env k a'
  let m' := match tb.2.1 with
    | some mm => some mm
    | none => mOld
  match tb.2.2 with
  | none => (.out (.ratioLabel r) :: tb.1, m', a', none)
  | some (.runtimeError msg) =>
    (.out (.ratioLabel r) :: tb.1 ++ [.out (.runtimeErrorMsg msg)], m', a', none)
  | some e => (.out (.ratioLabel r) :: tb.1, m', a', some e)

/-- One `for synth_ratio in synth_ratios` loop, starting at sweep point
`k` with configuration `a`, model variable `m` and output trace `tr`;
stops early when an exception propagates out of an iteration. -/
def runLoop {M : Type} (env : Env M) :
    ℕ → Arguments → Option M → List (Event M) → List ℚ →
    List (Event M) × Option M × Arguments × Option PyErr
  | _, a, m, tr, [] => (tr, m, a, none)
  | k, a, m, tr, r :: rs =>
    let s := step env k a m r
    match s.2.2.2 with
    | none => runLoop env (k + 1) s.2.2.1 s.2.1 (tr ++ s.1) rs
    | some e => (tr ++ s.1, s.2.1, s.2.2.1, some e)

/-- The trace of the three header lines printed before the first loop
(lines 22, 49 and 51). -/
def tr0 {M : Type} : List (Event M) :=
  [.out (.startHeader n_epochs), .out .dataAugMsg, .out (.channelHeader "R")]

/-- The whole `main()` of the script: header lines, the `"R"` loop over
sweep points `0..4`, the `"RG"` loop over sweep points `5..9`, and on
normal completion the `Ending` line and the duration footer computed from
the clock.  Returns the full event trace and the exception that escaped
`main`, if any. -/
def main {M : Type} (env : Env M) : List (Event M) × Option PyErr :=
  let l1 := runLoop env 0 argsStart none tr0 synth_ratios
  match l1.2.2.2 with
  | some e => (l1.1, some e)
  | none =>
    let a2 : Arguments := { l1.2.2.1 with input_channels := "RG" }
    let l2 := runLoop env 5 a2 l1.2.1 (l1.1 ++ [.out (.channelHeader "RG")])
      synth_ratios
    match l2.2.2.2 with
    | some e => (l2.1, some e)
    | none =>
      let d := env.endTime - env.startTime
      (l2.1 ++ [.out .ending,
        .out (.durationMsg (pyFloorDiv d 3600)
                (pyFMod (pyFloorDiv d 60) 60) (pyFMod d 60))], none)

/-- A history the driver can reduce without raising: `val_dice` is
non-empty (else `np.argmax` raises `ValueError`) and the three other
metric sequences are long enough at the best epoch (else indexing raises
`IndexError`).  `sc` is the scale-crop value used to build the keys. -/
def GoodHistory (sc : ℚ) (h : History) : Prop :=
  h "val_dice" ≠ [] ∧
  argmax (h "val_dice") < (h "val_loss").length ∧
  argmax (h "val_dice") < (h ("val_lossC" ++ fmtFix1 sc)).length ∧
  argmax (h "val_dice") < (h ("val_diC" ++ fmtFix1 sc)).length

/-- The collaborators behave recoverably at sweep point `k` with
configuration `a`: any exception they raise is a `RuntimeError`, and a
returned history is reducible. -/
def PointOK {M : Type} (env : Env M) (k : ℕ) (a : Arguments) : Prop :=
  (∀ e, env.construct k a.input_channels.length 4 16 true = .error e →
    isRTE e = true) ∧
  ∀ m, env.construct k a.input_channels.length 4 16 true = .ok m →
    (∀ e, env.train k a m = .error e → isRTE e = true) ∧
    (∀ h, env.train k a m = .ok h → GoodHistory a.scale_crop h)

/-- A collaborator raises a non-`RuntimeError` exception `e` at sweep
point `k` with configuration `a`: either model construction raises `e`,
or construction succeeds and training raises `e`. -/
def PointFatal {M : Type} (env : Env M) (k : ℕ) (a : Arguments) (e : PyErr) :
    Prop :=
  isRTE e = false ∧
  (env.construct k a.input_channels.length 4 16 true = .error e ∨
   ∃ m, env.construct k a.input_channels.length 4 16 true = .ok m ∧
     env.train k a m = .error e)

/-- The environment never behaves fatally: every run completes
successfully or recoverably, whatever the sweep point and configuration. -/
def NonFatal {M : Type} (env : Env M) : Prop :=
  ∀ (k : ℕ) (a : Arguments), PointOK env k a

/-- Events that mark the sweep structure: section headers, the per-point
ratio labels, and the model-construction calls. -/
def isMark {M : Type} : Event M → Bool
  | .out (.channelHeader _) => true
  | .out (.ratioLabel _) => true
  | .constructCall _ _ _ _ _ => true
  | _ => false

/-- The expected sequence of mark events for one loop over `rs`, starting
at sweep point `k` with an input-channel specifier of length `c`. -/
def marksFrom {M : Type} (k c : ℕ) : List ℚ → List (Event M)
  | [] => []
  | r :: rs =>
    .out (.ratioLabel r) :: .constructCall k c 4 16 true :: marksFrom (k + 1) c rs

/-- An event that is neither the `Ending` line nor the duration footer. -/
def NoFooter {M : Type} (e : Event M) : Prop :=
  e ≠ .out .ending ∧ ∀ x y z, e ≠ .out (.durationMsg x y z)

/-- A concrete history for witnesses: every metric has a single epoch with
value `1/2`. -/
def histW : History := fun _ => [mkRat 1 2]

/-- A concrete history whose `val_dice` sequence is `[0.1, 0.5, 0.3]` and
whose other metric sequences are `[10, 20, 30]`. -/
def histC1 : History := fun s =>
  if s = "val_dice" then [mkRat 1 10, mkRat 1 2, mkRat 3 10] else [10, 20, 30]

/-- A witness environment in which every run succeeds. -/
def envOK : Env Unit where
  construct := fun _ _ _ _ _ => .ok ()
  train := fun _ _ _ => .ok histW
  startTime := 0
  endTime := 3725

/-- A witness environment whose trainer returns the history `histC1`. -/
def envC1 : Env Unit where
  construct := fun _ _ _ _ _ => .ok ()
  train := fun _ _ _ => .ok histC1
  startTime := 0
  endTime := 0

/-- A witness environment whose trainer always raises `RuntimeError`. -/
def envTrainRTE : Env Unit where
  construct := fun _ _ _ _ _ => .ok ()
  train := fun _ _ _ => .error (.runtimeError "CUDA out of memory")
  startTime := 0
  endTime := 0

/-- A witness environment whose trainer always raises `TypeError`. -/
def envTrainTE : Env Unit where
  construct := fun _ _ _ _ _ => .ok ()
  train := fun _ _ _ => .error (.other "TypeError" "bad argument")
  startTime := 0
  endTime := 0

/-- A witness environment whose model construction always raises
`RuntimeError` (e.g. out of memory while allocating parameters). -/
def envConstructRTE : Env Unit where
  construct := fun _ _ _ _ _ => .error (.runtimeError "CUDA out of memory")
  train := fun _ _ _ => .ok histW
  startTime := 0
  endTime := 0

/-- A witness environment whose model construction always raises
`TypeError`. -/
def envConstructTE : Env Unit where
  construct := fun _ _ _ _ _ => .error (.other "TypeError" "bad argument")
  train := fun _ _ _ => .ok histW
  startTime := 0
  endTime := 0

/-! ### Properties of `argmax` -/

theorem argmax_cons_cons (v w : ℚ) (vs : List ℚ) :
    argmax (v :: w :: vs) =
      if (w :: vs).getD (argmax (w :: vs)) 0 ≤ v then 0
      else argmax (w :: vs) + 1 := rfl

theorem argmax_lt_length : ∀ (l : List ℚ), l ≠ [] → argmax l < l.length := by
  intro l
  induction l with
  | nil => intro h; exact absurd rfl h
  | cons v t ih =>
    cases t with
    | nil => intro _; simp [argmax]
    | cons w vs =>
      intro _
      rw [argmax_cons_cons]
      by_cases hc : (w :: vs).getD (argmax (w :: vs)) 0 ≤ v
      · rw [if_pos hc]; simp
      · rw [if_neg hc]
        simp only [List.length_cons]
        exact Nat.succ_lt_succ (ih (List.cons_ne_nil w vs))

theorem getD_le_argmax :
    ∀ (l : List ℚ) (i : ℕ), i < l.length →
      l.getD i 0 ≤ l.getD (argmax l) 0 := by
  intro l
  induction l with
  | nil => intro i hi; simp at hi
  | cons v t ih =>
    cases t with
    | nil =>
      intro i hi
      have hi0 : i = 0 := Nat.lt_one_iff.mp (by simpa using hi)
      subst hi0
      simp [argmax]
    | cons w vs =>
      intro i hi
      rw [argmax_cons_cons]
      by_cases hc : (w :: vs).getD (argmax (w :: vs)) 0 ≤ v
      · rw [if_pos hc]
        cases i with
        | zero => simp
        | succ j =>
          simp only [List.getD_cons_succ, List.getD_cons_zero]
          exact le_trans (ih j (by simpa using hi)) hc
      · rw [if_neg hc]
        cases i with
        | zero =>
          simp only [List.getD_cons_zero, List.getD_cons_succ]
          exact le_of_lt (lt_of_not_le hc)
        | succ j =>
          simp only [List.getD_cons_succ]
          exact ih j (by simpa using hi)

theorem getD_lt_of_lt_argmax :
    ∀ (l : List ℚ) (i : ℕ), i < argmax l →
      l.getD i 0 < l.getD (argmax l) 0 := by
  intro l
  induction l with
  | nil => intro i hi; simp [argmax] at hi
  | cons v t ih =>
    cases t with
    | nil => intro i hi; simp [argmax] at hi
    | cons w vs =>
      intro i hi
      rw [argmax_cons_cons] at hi ⊢
      by_cases hc : (w :: vs).getD (argmax (w :: vs)) 0 ≤ v
      · rw [if_pos hc] at hi
        exact absurd hi (Nat.not_lt_zero i)
      · rw [if_neg hc] at hi ⊢
        cases i with
        | zero =>
          simp only [List.getD_cons_zero, List.getD_cons_succ]
          exact lt_of_not_le hc
        | succ j =>
          simp only [List.getD_cons_succ]
          exact ih j (Nat.lt_of_succ_lt_succ hi)

/-! ### Characterization of `tryBody` -/

theorem isRTE_eq_true {e : PyErr} (h : isRTE e = true) :
    ∃ msg, e = .runtimeError msg := by
  cases e with
  | runtimeError msg => exact ⟨msg, rfl⟩
  | other c m => simp [isRTE] at h

theorem tryBody_construct_error {M : Type} (env : Env M) (k : ℕ)
    (a : Arguments) (e : PyErr)
    (hc : env.construct k a.input_channels.length 4 16 true = .error e) :
    tryBody env k a =
      ([.constructCall k a.input_channels.length 4 16 true], none, some e) := by
  simp only [tryBody, hc]

theorem tryBody_train_error {M : Type} (env : Env M) (k : ℕ)
    (a : Arguments) (m : M) (e : PyErr)
    (hc : env.construct k a.input_channels.length 4 16 true = .ok m)
    (ht : env.train k a m = .error e) :
    tryBody env k a =
      ([.constructCall k a.input_channels.length 4 16 true,
        .trainCall k a m], some m, some e) := by
  simp only [tryBody, hc, ht]

theorem tryBody_ok {M : Type} (env : Env M) (k : ℕ) (a : Arguments)
    (m : M) (h : History)
    (hc : env.construct k a.input_channels.length 4 16 true = .ok m)
    (ht : env.train k a m = .ok h)
    (hg : GoodHistory a.scale_crop h) :
    tryBody env k a =
      ([.constructCall k a.input_channels.length 4 16 true,
        .trainCall k a m,
        .out (.metrics ((h "val_loss").getD (argmax (h "val_dice")) 0)
          a.scale_crop
          ((h ("val_lossC" ++ fmtFix1 a.scale_crop)).getD
            (argmax (h "val_dice")) 0)
          ((h "val_dice").getD (argmax (h "val_dice")) 0)
          ((h ("val_diC" ++ fmtFix1 a.scale_crop)).getD
            (argmax (h "val_dice")) 0))],
       some m, none) := by
  simp only [tryBody, hc, ht]
  rw [if_neg hg.1, if_pos ⟨hg.2.1, hg.2.2.1, hg.2.2.2⟩]

theorem tryBody_filter {M : Type} (env : Env M) (k : ℕ) (a : Arguments) :
    ((tryBody env k a).1).filter isMark =
      [.constructCall k a.input_channels.length 4 16 true] := by
  simp only [tryBody]
  split
  · rfl
  · split
    · rfl
    · split
      · rfl
      · split
        · rfl
        · rfl

theorem tryBody_noFooter {M : Type} (env : Env M) (k : ℕ) (a : Arguments) :
    ∀ e ∈ (tryBody env k a).1, NoFooter e := by
  simp only [tryBody]
  split
  · intro e he
    simp only [List.mem_singleton] at he
    subst he
    exact ⟨by simp, by intro x y z; simp⟩
  · split
    · intro e he
      simp only [List.mem_cons, List.not_mem_nil, or_false] at he
      rcases he with h1 | h1 <;> (subst h1; exact ⟨by simp, by intro x y z; simp⟩)
    · split
      · intro e he
        simp only [List.mem_cons, List.not_mem_nil, or_false] at he
        rcases he with h1 | h1 <;>
          (subst h1; exact ⟨by simp, by intro x y z; simp⟩)
      · split
        · intro e he
          simp only [List.mem_cons, List.not_mem_nil, or_false] at he
          rcases he with h1 | h1 | h1 <;>
            (subst h1; exact ⟨by simp, by intro x y z; simp⟩)
        · intro e he
          simp only [List.mem_cons, List.not_mem_nil, or_false] at he
          rcases he with h1 | h1 <;>
            (subst h1; exact ⟨by simp, by intro x y z; simp⟩)

theorem tryBody_trainCall {M : Type} (env : Env M) (k : ℕ) (a : Arguments)
    (k' : ℕ) (a' : Arguments) (m' : M)
    (hm : Event.trainCall k' a' m' ∈ (tryBody env k a).1) :
    k' = k ∧ a' = a ∧
      env.construct k a.input_channels.length 4 16 true = .ok m' := by
  revert hm
  simp only [tryBody]
  split
  · intro hm; simp at hm
  · rename_i m hc
    split
    · intro hm
      simp only [List.mem_cons, List.not_mem_nil, or_false] at hm
      rcases hm with h1 | h1
      · exact absurd h1 (by simp)
      · obtain ⟨hk, ha, hmm⟩ := Event.trainCall.inj h1
        exact ⟨hk, ha, hmm ▸ hc⟩
    · split
      · intro hm
        simp only [List.mem_cons, List.not_mem_nil, or_false] at hm
        rcases hm with h1 | h1
        · exact absurd h1 (by simp)
        · obtain ⟨hk, ha, hmm⟩ := Event.trainCall.inj h1
          exact ⟨hk, ha, hmm ▸ hc⟩
      · split
        · intro hm
          simp only [List.mem_cons, List.not_mem_nil, or_false] at hm
          rcases hm with h1 | h1 | h1
          · exact absurd h1 (by simp)
          · obtain ⟨hk, ha, hmm⟩ := Event.trainCall.inj h1
            exact ⟨hk, ha, hmm ▸ hc⟩
          · exact absurd h1 (by simp)
        · intro hm
          simp only [List.mem_cons, List.not_mem_nil, or_false] at hm
          rcases hm with h1 | h1
          · exact absurd h1 (by simp)
          · obtain ⟨hk, ha, hmm⟩ := Event.trainCall.inj h1
            exact ⟨hk, ha, hmm ▸ hc⟩

/-! ### Characterization of `step` -/

theorem step_args {M : Type} (env : Env M) (k : ℕ) (a : Arguments)
    (mo : Option M) (r : ℚ) :
    (step env k a mo r).2.2.1 = { a with synthetic_ratio := some r } := by
  simp only [step]
  split <;> rfl

theorem step_filter {M : Type} (env : Env M) (k : ℕ) (a : Arguments)
    (mo : Option M) (r : ℚ) :
    ((step env k a mo r).1).filter isMark =
      [.out (.ratioLabel r),
       .constructCall k a.input_channels.length 4 16 true] := by
  have hf := tryBody_filter env k { a with synthetic_ratio := some r }
  simp only [step]
  split <;>
    simp only [List.filter_cons, List.filter_append, hf] <;> rfl

theorem step_noFooter {M : Type} (env : Env M) (k : ℕ) (a : Arguments)
    (mo : Option M) (r : ℚ) :
    ∀ e ∈ (step env k a mo r).1, NoFooter e := by
  have hf := tryBody_noFooter env k { a with synthetic_ratio := some r }
  simp only [step]
  split
  · intro e he
    simp only [List.mem_cons] at he
    rcases he with h1 | h1
    · subst h1; exact ⟨by simp, by intro x y z; simp⟩
    · exact hf e h1
  · intro e he
    simp only [List.mem_cons, List.mem_append, List.mem_singleton,
      List.not_mem_nil, or_false] at he
    rcases he with (h1 | h1) | h1
    · subst h1; exact ⟨by simp, by intro x y z; simp⟩
    · exact hf e h1
    · subst h1; exact ⟨by simp, by intro x y z; simp⟩
  · intro e he
    simp only [List.mem_cons] at he
    rcases he with h1 | h1
    · subst h1; exact ⟨by simp, by intro x y z; simp⟩
    · exact hf e h1

theorem step_trainCall {M : Type} (env : Env M) (k : ℕ) (a : Arguments)
    (mo : Option M) (r : ℚ) (k' : ℕ) (a' : Arguments) (m' : M)
    (hm : Event.trainCall k' a' m' ∈ (step env k a mo r).1) :
    k' = k ∧ a' = { a with synthetic_ratio := some r } ∧
      env.construct k a.input_channels.length 4 16 true = .ok m' := by
  have key :
      Event.trainCall k' a' m' ∈
          (tryBody env k { a with synthetic_ratio := some r }).1 →
        k' = k ∧ a' = { a with synthetic_ratio := some r } ∧
          env.construct k a.input_channels.length 4 16 true = .ok m' :=
    fun hmem => tryBody_trainCall env k _ k' a' m' hmem
  revert hm
  simp only [step]
  split
  · intro hm
    simp only [List.mem_cons] at hm
    rcases hm with h1 | h1
    · exact absurd h1 (by simp)
    · exact key h1
  · intro hm
    simp only [List.mem_cons, List.mem_append, List.mem_singleton,
      List.not_mem_nil, or_false] at hm
    rcases hm with (h1 | h1) | h1
    · exact absurd h1 (by simp)
    · exact key h1
    · exact absurd h1 (by simp)
  · intro hm
    simp only [List.mem_cons] at hm
    rcases hm with h1 | h1
    · exact absurd h1 (by simp)
    · exact key h1

theorem step_ok {M : Type} (env : Env M) (k : ℕ) (a : Arguments)
    (mo : Option M) (r : ℚ)
    (h : PointOK env k { a with synthetic_ratio := some r }) :
    (step env k a mo r).2.2.2 = none := by
  cases hc : env.construct k a.input_channels.length 4 16 true with
  | error e =>
    obtain ⟨msg, rfl⟩ := isRTE_eq_true (h.1 e hc)
    simp only [step, tryBody_construct_error env k
      { a with synthetic_ratio := some r } _ hc]
  | ok m =>
    obtain ⟨h1, h2⟩ := h.2 m hc
    cases ht : env.train k { a with synthetic_ratio := some r } m with
    | error e =>
      obtain ⟨msg, rfl⟩ := isRTE_eq_true (h1 e ht)
      simp only [step, tryBody_train_error env k
        { a with synthetic_ratio := some r } m _ hc ht]
    | ok hist =>
      simp only [step, tryBody_ok env k { a with synthetic_ratio := some r }
        m hist hc ht (h2 hist ht)]

theorem step_fatal {M : Type} (env : Env M) (k : ℕ) (a : Arguments)
    (mo : Option M) (r : ℚ) (e : PyErr)
    (hf : PointFatal env k { a with synthetic_ratio := some r } e) :
    (step env k a mo r).2.2.2 = some e := by
  obtain ⟨hrte, hcase⟩ := hf
  cases e with
  | runtimeError msg => simp [isRTE] at hrte
  | other c msg =>
    rcases hcase with hc | ⟨m, hc, ht⟩
    · simp only [step, tryBody_construct_error env k
        { a with synthetic_ratio := some r } _ hc]
    · simp only [step, tryBody_train_error env k
        { a with synthetic_ratio := some r } m _ hc ht]

theorem step_failLine {M : Type} (env : Env M) (k : ℕ) (a : Arguments)
    (mo : Option M) (r : ℚ) (msg : String)
    (h : (tryBody env k { a with synthetic_ratio := some r }).2.2 =
      some (.runtimeError msg)) :
    Event.out (Line.runtimeErrorMsg msg) ∈ (step env k a mo r).1 := by
  simp only [step, h]
  simp

/-! ### Characterization of `runLoop` -/

theorem runLoop_mem_mono {M : Type} (env : Env M) :
    ∀ (rs : List ℚ) (k : ℕ) (a : Arguments) (m : Option M)
      (tr : List (Event M)) (e : Event M),
      e ∈ tr → e ∈ (runLoop env k a m tr rs).1 := by
  intro rs
  induction rs with
  | nil => intro k a m tr e he; exact he
  | cons r rs' ih =>
    intro k a m tr e he
    simp only [runLoop]
    split
    · exact ih _ _ _ _ e (List.mem_append_left _ he)
    · exact List.mem_append_left _ he

theorem runLoop_noFooter {M : Type} (env : Env M) :
    ∀ (rs : List ℚ) (k : ℕ) (a : Arguments) (m : Option M)
      (tr : List (Event M)) (e : Event M),
      e ∈ (runLoop env k a m tr rs).1 → e ∈ tr ∨ NoFooter e := by
  intro rs
  induction rs with
  | nil => intro k a m tr e he; exact Or.inl he
  | cons r rs' ih =>
    intro k a m tr e he
    simp only [runLoop] at he
    have fromStep : e ∈ tr ++ (step env k a m r).1 → e ∈ tr ∨ NoFooter e := by
      intro hh
      rcases List.mem_append.mp hh with h1 | h1
      · exact Or.inl h1
      · exact Or.inr (step_noFooter env k a m r e h1)
    split at he
    · rcases ih _ _ _ _ e he with h1 | h1
      · exact fromStep h1
      · exact Or.inr h1
    · exact fromStep he

theorem runLoop_args {M : Type} (env : Env M) :
    ∀ (rs : List ℚ) (k : ℕ) (a : Arguments) (m : Option M)
      (tr : List (Event M)),
      ∃ q, (runLoop env k a m tr rs).2.2.1 = { a with synthetic_ratio := q } := by
  intro rs
  induction rs with
  | nil => intro k a m tr; exact ⟨a.synthetic_ratio, rfl⟩
  | cons r rs' ih =>
    intro k a m tr
    simp only [runLoop]
    split
    · rw [step_args]
      obtain ⟨q, hq⟩ := ih (k + 1) { a with synthetic_ratio := some r }
        (step env k a m r).2.1 (tr ++ (step env k a m r).1)
      exact ⟨q, hq⟩
    · exact ⟨some r, step_args env k a m r⟩

theorem runLoop_ok {M : Type} (env : Env M) :
    ∀ (rs : List ℚ) (k : ℕ) (a : Arguments) (m : Option M)
      (tr : List (Event M)),
      (∀ j, j < rs.length →
        PointOK env (k + j) { a with synthetic_ratio := some (rs.getD j 0) }) →
      (runLoop env k a m tr rs).2.2.2 = none ∧
      ((runLoop env k a m tr rs).1).filter isMark =
        tr.filter isMark ++ marksFrom k a.input_channels.length rs := by
  intro rs
  induction rs with
  | nil =>
    intro k a m tr _
    exact ⟨rfl, by simp [runLoop, marksFrom]⟩
  | cons r rs' ih =>
    intro k a m tr H
    have h0 : PointOK env k { a with synthetic_ratio := some r } := by
      have := H 0 (Nat.succ_pos _)
      simpa using this
    have hnone := step_ok env k a m r h0
    simp only [runLoop]
    split
    · rw [step_args]
      have ihh := ih (k + 1) { a with synthetic_ratio := some r }
        (step env k a m r).2.1 (tr ++ (step env k a m r).1) ?_
      · refine ⟨ihh.1, ?_⟩
        rw [ihh.2, List.filter_append, step_filter]
        simp [marksFrom, List.append_assoc]
      · intro j hj
        have := H (j + 1) (Nat.succ_lt_succ hj)
        have e1 : (r :: rs').getD (j + 1) 0 = rs'.getD j 0 := rfl
        have e2 : k + (j + 1) = k + 1 + j := by omega
        rw [e1, e2] at this
        exact this
    · rename_i e heq
      rw [hnone] at heq
      cases heq

theorem runLoop_fatal {M : Type} (env : Env M) :
    ∀ (rs : List ℚ) (k : ℕ) (a : Arguments) (m : Option M)
      (tr : List (Event M)) (j₀ : ℕ) (e : PyErr),
      j₀ < rs.length →
      (∀ j, j < j₀ →
        PointOK env (k + j) { a with synthetic_ratio := some (rs.getD j 0) }) →
      PointFatal env (k + j₀) { a with synthetic_ratio := some (rs.getD j₀ 0) } e →
      (runLoop env k a m tr rs).2.2.2 = some e := by
  intro rs
  induction rs with
  | nil => intro k a m tr j₀ e hj; exact absurd hj (Nat.not_lt_zero _)
  | cons r rs' ih =>
    intro k a m tr j₀ e hj H hf
    cases j₀ with
    | zero =>
      have hf' : PointFatal env k { a with synthetic_ratio := some r } e := by
        simpa using hf
      have hstep := step_fatal env k a m r e hf'
      simp only [runLoop]
      split
      · rename_i heq
        rw [hstep] at heq
        cases heq
      · rename_i e' heq
        rw [hstep] at heq
        cases heq
        rfl
    | succ j₀' =>
      have h0 : PointOK env k { a with synthetic_ratio := some r } := by
        have := H 0 (Nat.succ_pos _)
        simpa using this
      have hnone := step_ok env k a m r h0
      simp only [runLoop]
      split
      · rw [step_args]
        refine ih (k + 1) { a with synthetic_ratio := some r }
          (step env k a m r).2.1 (tr ++ (step env k a m r).1) j₀' e
          (Nat.lt_of_succ_lt_succ hj) ?_ ?_
        · intro j hjj
          have := H (j + 1) (Nat.succ_lt_succ hjj)
          have e2 : k + (j + 1) = k + 1 + j := by omega
          rw [e2] at this
          exact this
        · have e2 : k + (j₀' + 1) = k + 1 + j₀' := by omega
          rw [e2] at hf
          exact hf
      · rename_i e' heq
        rw [hnone] at heq
        cases heq

theorem runLoop_failLine {M : Type} (env : Env M) :
    ∀ (rs : List ℚ) (k : ℕ) (a : Arguments) (m : Option M)
      (tr : List (Event M)) (j₀ : ℕ) (msg : String),
      j₀ < rs.length →
      (∀ j, j < j₀ →
        PointOK env (k + j) { a with synthetic_ratio := some (rs.getD j 0) }) →
      (tryBody env (k + j₀)
        { a with synthetic_ratio := some (rs.getD j₀ 0) }).2.2 =
          some (.runtimeError msg) →
      Event.out (Line.runtimeErrorMsg msg) ∈ (runLoop env k a m tr rs).1 := by
  intro rs
  induction rs with
  | nil => intro k a m tr j₀ msg hj; exact absurd hj (Nat.not_lt_zero _)
  | cons r rs' ih =>
    intro k a m tr j₀ msg hj H hres
    cases j₀ with
    | zero =>
      have hres' :
          (tryBody env k { a with synthetic_ratio := some r }).2.2 =
            some (.runtimeError msg) := by
        simpa using hres
      have hm : Event.out (Line.runtimeErrorMsg msg) ∈
          tr ++ (step env k a m r).1 :=
        List.mem_append_right _ (step_failLine env k a m r msg hres')
      simp only [runLoop]
      split
      · exact runLoop_mem_mono env rs' _ _ _ _ _ hm
      · exact hm
    | succ j₀' =>
      have h0 : PointOK env k { a with synthetic_ratio := some r } := by
        have := H 0 (Nat.succ_pos _)
        simpa using this
      have hnone := step_ok env k a m r h0
      simp only [runLoop]
      split
      · rw [step_args]
        refine ih (k + 1) { a with synthetic_ratio := some r }
          (step env k a m r).2.1 (tr ++ (step env k a m r).1) j₀' msg
          (Nat.lt_of_succ_lt_succ hj) ?_ ?_
        · intro j hjj
          have := H (j + 1) (Nat.succ_lt_succ hjj)
          have e2 : k + (j + 1) = k + 1 + j := by omega
          rw [e2] at this
          exact this
        · have e2 : k + (j₀' + 1) = k + 1 + j₀' := by omega
          rw [e2] at hres
          exact hres
      · rename_i e' heq
        rw [hnone] at heq
        cases heq

theorem runLoop_trainCall {M : Type} (env : Env M) :
    ∀ (rs : List ℚ) (k : ℕ) (a : Arguments) (m : Option M)
      (tr : List (Event M)) (k' : ℕ) (a' : Arguments) (m' : M),
      Event.trainCall k' a' m' ∈ (runLoop env k a m tr rs).1 →
      Event.trainCall k' a' m' ∈ tr ∨
        (k ≤ k' ∧ k' < k + rs.length ∧
         (∃ q, a' = { a with synthetic_ratio := q }) ∧
         env.construct k' a'.input_channels.length 4 16 true = .ok m') := by
  intro rs
  induction rs with
  | nil => intro k a m tr k' a' m' hm; exact Or.inl hm
  | cons r rs' ih =>
    intro k a m tr k' a' m' hm
    have fromStep :
        Event.trainCall k' a' m' ∈ (step env k a m r).1 →
          k ≤ k' ∧ k' < k + (r :: rs').length ∧
          (∃ q, a' = { a with synthetic_ratio := q }) ∧
          env.construct k' a'.input_channels.length 4 16 true = .ok m' := by
      intro hh
      obtain ⟨hk, ha, hc⟩ := step_trainCall env k a m r k' a' m' hh
      subst hk
      refine ⟨le_refl _, by simp, ⟨some r, ha⟩, ?_⟩
      rw [ha]
      exact hc
    simp only [runLoop] at hm
    split at hm
    · rcases ih _ _ _ _ _ _ _ hm with h1 | ⟨hk1, hk2, ⟨q, hq⟩, hc⟩
      · rcases List.mem_append.mp h1 with h2 | h2
        · exact Or.inl h2
        · exact Or.inr (fromStep h2)
      · refine Or.inr ⟨by omega, ?_, ⟨q, ?_⟩, hc⟩
        · simp only [List.length_cons]
          omega
        · rw [step_args] at hq
          exact hq
    · rcases List.mem_append.mp hm with h2 | h2
      · exact Or.inl h2
      · exact Or.inr (fromStep h2)

/-! ### Characterization of `main` -/

theorem argsAt_lt5 (j : ℕ) (h : j < 5) :
    argsAt j = { argsStart with synthetic_ratio := some (synth_ratios.getD j 0) } := by
  unfold argsAt
  rw [if_pos h, Nat.mod_eq_of_lt h]
  rfl

theorem argsAt_ge5 (j : ℕ) (h5 : 5 ≤ j) (h10 : j < 10) :
    argsAt j =
      { argsStart with
          input_channels := "RG",
          synthetic_ratio := some (synth_ratios.getD (j - 5) 0) } := by
  unfold argsAt
  rw [if_neg (not_lt.mpr h5), Nat.mod_eq_sub_mod h5, Nat.mod_eq_of_lt (by omega)]

theorem main_nonfatal {M : Type} (env : Env M) (h : NonFatal env) :
    (main env).2 = none ∧
    ((main env).1).filter isMark =
      Event.out (Line.channelHeader "R") :: marksFrom 0 1 synth_ratios ++
        Event.out (Line.channelHeader "RG") :: marksFrom 5 2 synth_ratios := by
  have H1 := runLoop_ok env synth_ratios 0 argsStart none tr0
    (fun j _ => h _ _)
  simp only [main]
  split
  · rename_i e heq
    rw [H1.1] at heq
    cases heq
  · rename_i heq
    have H2 := runLoop_ok env synth_ratios 5
      { (runLoop env 0 argsStart none tr0 synth_ratios).2.2.1 with
        input_channels := "RG" }
      (runLoop env 0 argsStart none tr0 synth_ratios).2.1
      ((runLoop env 0 argsStart none tr0 synth_ratios).1 ++
        [.out (.channelHeader "RG")])
      (fun j _ => h _ _)
    split
    · rename_i e heq2
      rw [H2.1] at heq2
      cases heq2
    · refine ⟨rfl, ?_⟩
      rw [List.filter_append, H2.2, List.filter_append, H1.2]
      rfl

theorem main_trainCall {M : Type} (env : Env M) (k' : ℕ) (a' : Arguments)
    (m' : M) (hm : Event.trainCall k' a' m' ∈ (main env).1) :
    env.construct k' a'.input_channels.length 4 16 true = .ok m' ∧
    ((k' < 5 ∧ ∃ q, a' = { argsStart with synthetic_ratio := q }) ∨
     (5 ≤ k' ∧ k' < 10 ∧
       ∃ q, a' =
         { argsStart with input_channels := "RG", synthetic_ratio := q })) := by
  have len5 : synth_ratios.length = 5 := rfl
  have fromLoop1 :
      Event.trainCall k' a' m' ∈
          (runLoop env 0 argsStart none tr0 synth_ratios).1 →
        env.construct k' a'.input_channels.length 4 16 true = .ok m' ∧
        (k' < 5 ∧ ∃ q, a' = { argsStart with synthetic_ratio := q }) := by
    intro hh
    rcases runLoop_trainCall env synth_ratios 0 argsStart none tr0 k' a' m' hh
      with h1 | ⟨_, hlt, hq, hc⟩
    · exact absurd h1 (by simp [tr0])
    · exact ⟨hc, by omega, hq⟩
  simp only [main] at hm
  split at hm
  · obtain ⟨hc, hrest⟩ := fromLoop1 hm
    exact ⟨hc, Or.inl hrest⟩
  · have fromLoop2 :
        Event.trainCall k' a' m' ∈
            (runLoop env 5
              { (runLoop env 0 argsStart none tr0 synth_ratios).2.2.1 with
                input_channels := "RG" }
              (runLoop env 0 argsStart none tr0 synth_ratios).2.1
              ((runLoop env 0 argsStart none tr0 synth_ratios).1 ++
                [.out (.channelHeader "RG")]) synth_ratios).1 →
          env.construct k' a'.input_channels.length 4 16 true = .ok m' ∧
          ((k' < 5 ∧ ∃ q, a' = { argsStart with synthetic_ratio := q }) ∨
           (5 ≤ k' ∧ k' < 10 ∧
             ∃ q, a' = { argsStart with input_channels := "RG", synthetic_ratio := q })) := by
      intro hh
      rcases runLoop_trainCall env synth_ratios 5 _ _ _ k' a' m' hh
        with h1 | ⟨hge, hlt, ⟨q, hq⟩, hc⟩
      · rcases List.mem_append.mp h1 with h2 | h2
        · obtain ⟨hc, hrest⟩ := fromLoop1 h2
          exact ⟨hc, Or.inl hrest⟩
        · exact absurd h2 (by simp)
      · obtain ⟨q', hq'⟩ := runLoop_args env synth_ratios 0 argsStart none tr0
        rw [hq'] at hq
        exact ⟨hc, Or.inr ⟨hge, by omega, ⟨q, hq⟩⟩⟩
    split at hm
    · exact fromLoop2 hm
    · rcases List.mem_append.mp hm with h2 | h2
      · exact fromLoop2 h2
      · exact absurd h2 (by simp)

theorem main_failLine {M : Type} (env : Env M) (h : NonFatal env) (k₀ : ℕ)
    (hk : k₀ < 10) (msg : String)
    (hres : (tryBody env k₀ (argsAt k₀)).2.2 = some (.runtimeError msg)) :
    Event.out (Line.runtimeErrorMsg msg) ∈ (main env).1 := by
  have len5 : synth_ratios.length = 5 := rfl
  have H1 := runLoop_ok env synth_ratios 0 argsStart none tr0
    (fun j _ => h _ _)
  have memLoop1 : k₀ < 5 →
      Event.out (Line.runtimeErrorMsg msg) ∈
        (runLoop env 0 argsStart none tr0 synth_ratios).1 := by
    intro hk5
    refine runLoop_failLine env synth_ratios 0 argsStart none tr0 k₀ msg
      (by omega) (fun j _ => h _ _) ?_
    have e1 : (0 : ℕ) + k₀ = k₀ := by omega
    rw [e1, ← argsAt_lt5 k₀ hk5]
    exact hres
  simp only [main]
  split
  · rename_i e heq
    rw [H1.1] at heq
    cases heq
  · have H2 := runLoop_ok env synth_ratios 5
      { (runLoop env 0 argsStart none tr0 synth_ratios).2.2.1 with
        input_channels := "RG" }
      (runLoop env 0 argsStart none tr0 synth_ratios).2.1
      ((runLoop env 0 argsStart none tr0 synth_ratios).1 ++
        [.out (.channelHeader "RG")])
      (fun j _ => h _ _)
    have memLoop2 :
        Event.out (Line.runtimeErrorMsg msg) ∈
          (runLoop env 5
            { (runLoop env 0 argsStart none tr0 synth_ratios).2.2.1 with
              input_channels := "RG" }
            (runLoop env 0 argsStart none tr0 synth_ratios).2.1
            ((runLoop env 0 argsStart none tr0 synth_ratios).1 ++
              [.out (.channelHeader "RG")]) synth_ratios).1 := by
      by_cases hk5 : k₀ < 5
      · exact runLoop_mem_mono env synth_ratios 5 _ _ _ _
          (List.mem_append_left _ (memLoop1 hk5))
      · obtain ⟨q', hq'⟩ := runLoop_args env synth_ratios 0 argsStart none tr0
        refine runLoop_failLine env synth_ratios 5 _ _ _ (k₀ - 5) msg
          (by omega) (fun j _ => h _ _) ?_
        have e1 : (5 : ℕ) + (k₀ - 5) = k₀ := by omega
        rw [e1, hq']
        rw [argsAt_ge5 k₀ (by omega) hk] at hres
        exact hres
    split
    · exact memLoop2
    · exact List.mem_append_left _ memLoop2

theorem main_fatal {M : Type} (env : Env M) (k₀ : ℕ) (hk : k₀ < 10)
    (e : PyErr)
    (hbef : ∀ j, j < k₀ → PointOK env j (argsAt j))
    (hf : PointFatal env k₀ (argsAt k₀) e) :
    (main env).2 = some e ∧
    Event.out Line.ending ∉ (main env).1 ∧
    ∀ x y z, Event.out (Line.durationMsg x y z) ∉ (main env).1 := by
  have len5 : synth_ratios.length = 5 := rfl
  have noFooterTr0 :
      ∀ e' : Event M, e' ∈ (tr0 : List (Event M)) → NoFooter e' := by
    intro e' he'
    simp only [tr0, List.mem_cons, List.not_mem_nil, or_false] at he'
    rcases he' with h1 | h1 | h1 <;>
      (subst h1; exact ⟨by simp, by intro x y z; simp⟩)
  have noFooter1 :
      ∀ e' : Event M,
        e' ∈ (runLoop env 0 argsStart none tr0 synth_ratios).1 →
          NoFooter e' := by
    intro e' he'
    rcases runLoop_noFooter env synth_ratios 0 argsStart none tr0 e' he'
      with h1 | h1
    · exact noFooterTr0 e' h1
    · exact h1
  by_cases hk5 : k₀ < 5
  · have hfat : (runLoop env 0 argsStart none tr0 synth_ratios).2.2.2 =
        some e := by
      refine runLoop_fatal env synth_ratios 0 argsStart none tr0 k₀ e
        (by omega) ?_ ?_
      · intro j hj
        have e1 : (0 : ℕ) + j = j := by omega
        rw [e1, ← argsAt_lt5 j (by omega)]
        exact hbef j hj
      · have e1 : (0 : ℕ) + k₀ = k₀ := by omega
        rw [e1, ← argsAt_lt5 k₀ hk5]
        exact hf
    simp only [main]
    split
    · rename_i e' heq
      rw [hfat] at heq
      cases heq
      refine ⟨rfl, ?_, ?_⟩
      · intro hmem
        exact absurd rfl (noFooter1 _ hmem).1
      · intro x y z hmem
        exact absurd rfl ((noFooter1 _ hmem).2 x y z)
    · rename_i heq
      rw [hfat] at heq
      cases heq
  · have H1 := runLoop_ok env synth_ratios 0 argsStart none tr0 ?hok1
    case hok1 =>
      intro j hj
      have e1 : (0 : ℕ) + j = j := by omega
      rw [e1, ← argsAt_lt5 j (by omega)]
      exact hbef j (by omega)
    obtain ⟨q', hq'⟩ := runLoop_args env synth_ratios 0 argsStart none tr0
    have hfat2 : (runLoop env 5
        { (runLoop env 0 argsStart none tr0 synth_ratios).2.2.1 with
          input_channels := "RG" }
        (runLoop env 0 argsStart none tr0 synth_ratios).2.1
        ((runLoop env 0 argsStart none tr0 synth_ratios).1 ++
          [.out (.channelHeader "RG")]) synth_ratios).2.2.2 = some e := by
      refine runLoop_fatal env synth_ratios 5 _ _ _ (k₀ - 5) e (by omega)
        ?_ ?_
      · intro j hj
        have e1 : (5 : ℕ) + j = 5 + j := rfl
        rw [hq']
        have := hbef (5 + j) (by omega)
        rw [argsAt_ge5 (5 + j) (by omega) (by omega)] at this
        have e2 : 5 + j - 5 = j := by omega
        rw [e2] at this
        exact this
      · rw [hq']
        have e1 : (5 : ℕ) + (k₀ - 5) = k₀ := by omega
        rw [e1]
        rw [argsAt_ge5 k₀ (by omega) hk] at hf
        exact hf
    have noFooter2 :
        ∀ e' : Event M,
          e' ∈ (runLoop env 5
            { (runLoop env 0 argsStart none tr0 synth_ratios).2.2.1 with
              input_channels := "RG" }
            (runLoop env 0 argsStart none tr0 synth_ratios).2.1
            ((runLoop env 0 argsStart none tr0 synth_ratios).1 ++
              [.out (.channelHeader "RG")]) synth_ratios).1 →
            NoFooter e' := by
      intro e' he'
      rcases runLoop_noFooter env synth_ratios 5 _ _ _ e' he' with h1 | h1
      · rcases List.mem_append.mp h1 with h2 | h2
        · exact noFooter1 e' h2
        · have h3 : e' = Event.out (Line.channelHeader "RG") := by
            simpa using h2
          subst h3
          exact ⟨by simp, by intro x y z; simp⟩
      · exact h1
    simp only [main]
    split
    · rename_i e' heq
      rw [H1.1] at heq
      cases heq
    · split
      · rename_i e' heq2
        rw [hfat2] at heq2
        cases heq2
        refine ⟨rfl, ?_, ?_⟩
        · intro hmem
          exact absurd rfl (noFooter2 _ hmem).1
        · intro x y z hmem
          exact absurd rfl ((noFooter2 _ hmem).2 x y z)
      · rename_i heq2
        rw [hfat2] at heq2
        cases heq2

theorem main_footer {M : Type} (env : Env M) (hok : (main env).2 = none) :
    ∃ t, (main env).1 =
      t ++ [Event.out Line.ending,
        Event.out (Line.durationMsg
          (pyFloorDiv (env.endTime - env.startTime) 3600)
          (pyFMod (pyFloorDiv (env.endTime - env.startTime) 60) 60)
          (pyFMod (env.endTime - env.startTime) 60))] := by
  simp only [main] at hok ⊢
  split
  · rename_i e heq
    rw [heq] at hok
    simp at hok
  · rename_i heq1
    split
    · rename_i e heq2
      rw [heq1] at hok
      simp only [heq2] at hok
      simp at hok
    · exact ⟨_, rfl⟩

/-! ### Arithmetic of the duration footer and of `"%.1f"` rounding -/

theorem rat_num_eq (x : ℚ) : (x.num : ℚ) = x * (x.den : ℚ) :=
  (div_eq_iff (by exact_mod_cast x.den_ne_zero)).mp (Rat.num_div_den x)

theorem floor_intCast_div_intCast (a b : ℤ) (hb : 0 < b) :
    ⌊((a : ℚ) / (b : ℚ))⌋ = Int.fdiv a b := by
  have h2 : (b : ℚ) = ((b.toNat : ℕ) : ℚ) := by
    exact_mod_cast (Int.toNat_of_nonneg hb.le).symm
  rw [h2, Rat.floor_intCast_div_natCast]
  rw [show ((b.toNat : ℕ) : ℤ) = b from Int.toNat_of_nonneg hb.le]
  exact (Int.fdiv_eq_ediv a hb.le).symm

theorem pyFloorDiv_eq_floor (x y : ℚ) (hy : 0 < y) :
    pyFloorDiv x y = ((⌊x / y⌋ : ℤ) : ℚ) := by
  have hbz : (0 : ℤ) < (x.den : ℤ) * y.num :=
    mul_pos (by exact_mod_cast x.den_pos) (Rat.num_pos.mpr hy)
  have hquot : x / y =
      (((x.num * (y.den : ℤ)) : ℤ) : ℚ) /
        ((((x.den : ℤ) * y.num) : ℤ) : ℚ) := by
    rw [div_eq_div_iff (ne_of_gt hy) (by exact_mod_cast hbz.ne.symm)]
    push_cast
    rw [rat_num_eq x, rat_num_eq y]
    ring
  rw [hquot, floor_intCast_div_intCast _ _ hbz]
  rfl

theorem pyFMod_eq (x y : ℚ) :
    pyFMod x y = x - y * pyFloorDiv x y := by
  have hdz : ((((x.den : ℤ) * (y.den : ℤ)) : ℤ) : ℚ) ≠ 0 := by
    have h : (0 : ℤ) < (x.den : ℤ) * (y.den : ℤ) :=
      mul_pos (by exact_mod_cast x.den_pos) (by exact_mod_cast y.den_pos)
    exact_mod_cast h.ne.symm
  unfold pyFMod pyFloorDiv
  rw [Rat.divInt_eq_div, div_eq_iff hdz]
  push_cast
  rw [rat_num_eq x, rat_num_eq y]
  ring

theorem pyFMod_minutes (d : ℚ) :
    pyFMod (pyFloorDiv d 60) 60 = ((⌊d / 60⌋ % 60 : ℤ) : ℚ) := by
  have h60 : (0 : ℚ) < 60 := by norm_num
  rw [pyFMod_eq, pyFloorDiv_eq_floor d 60 h60,
    pyFloorDiv_eq_floor _ _ h60]
  rw [show ((60 : ℚ)) = (((60 : ℤ)) : ℚ) by norm_num]
  rw [floor_intCast_div_intCast _ _ (by norm_num),
    Int.fdiv_eq_ediv _ (by norm_num), Int.emod_def]
  push_cast
  ring

theorem fmtFix1_round (q : ℚ) :
    Int.fdiv (q.num * 20 + q.den) (2 * q.den) = ⌊q * 10 + 1 / 2⌋ := by
  have h1 : (0 : ℤ) < (q.den : ℤ) := by exact_mod_cast q.den_pos
  have hden : (0 : ℤ) < 2 * (q.den : ℤ) := by linarith
  have hquot : q * 10 + 1 / 2 =
      (((q.num * 20 + (q.den : ℤ)) : ℤ) : ℚ) /
        (((2 * (q.den : ℤ)) : ℤ) : ℚ) := by
    rw [eq_div_iff (by exact_mod_cast hden.ne.symm)]
    push_cast
    rw [rat_num_eq q]
    ring
  rw [hquot, floor_intCast_div_intCast _ _ hden]

theorem fmtFix1_four : fmtFix1 4 = "4.0" := by decide

/-! ### The witness environments are non-fatal -/

theorem goodHistW (sc : ℚ) : GoodHistory sc histW :=
  ⟨by simp [histW], by simp [histW, argmax], by simp [histW, argmax],
   by simp [histW, argmax]⟩

theorem nonFatal_envOK : NonFatal envOK := by
  intro k a
  constructor
  · intro e he
    simp [envOK] at he
  · intro m _
    constructor
    · intro e he
      simp [envOK] at he
    · intro h hh
      have hw : histW = h := by simpa [envOK] using hh
      exact hw ▸ goodHistW a.scale_crop

theorem nonFatal_envTrainRTE : NonFatal envTrainRTE := by
  intro k a
  constructor
  · intro e he
    simp [envTrainRTE] at he
  · intro m _
    constructor
    · intro e he
      have : PyErr.runtimeError "CUDA out of memory" = e := by
        simpa [envTrainRTE] using he
      subst this
      rfl
    · intro h hh
      simp [envTrainRTE] at hh

theorem nonFatal_envConstructRTE : NonFatal envConstructRTE := by
  intro k a
  constructor
  · intro e he
    have : PyErr.runtimeError "CUDA out of memory" = e := by
      simpa [envConstructRTE] using he
    subst this
    rfl
  · intro m hm
    simp [envConstructRTE] at hm

/-! ### The claims -/

/-- C1: for every run in which the trainer returns a history, the driver
resolves the best epoch as `np.argmax` of the history's `val_dice`
sequence and reads all four reported metrics (`val_loss`,
`val_lossC{scale}`, `val_dice`, `val_diC{scale}`) at that same index; in
particular, for a `val_dice` sequence `[0.1, 0.5, 0.3]` the best-epoch
index is `1`. -/
theorem claim_C1 {M : Type} (env : Env M) (k : ℕ) (a : Arguments)
    (mo : Option M) (r : ℚ) (m : M) (h : History)
    (hc : env.construct k a.input_channels.length 4 16 true = .ok m)
    (ht : env.train k { a with synthetic_ratio := some r } m = .ok h)
    (hg : GoodHistory a.scale_crop h) :
    (step env k a mo r).1 =
      [Event.out (Line.ratioLabel r),
       Event.constructCall k a.input_channels.length 4 16 true,
       Event.trainCall k { a with synthetic_ratio := some r } m,
       Event.out (Line.metrics
         ((h "val_loss").getD (argmax (h "val_dice")) 0)
         a.scale_crop
         ((h ("val_lossC" ++ fmtFix1 a.scale_crop)).getD
           (argmax (h "val_dice")) 0)
         ((h "val_dice").getD (argmax (h "val_dice")) 0)
         ((h ("val_diC" ++ fmtFix1 a.scale_crop)).getD
           (argmax (h "val_dice")) 0))] ∧
    (step env k a mo r).2.2.2 = none ∧
    argmax [mkRat 1 10, mkRat 1 2, mkRat 3 10] = 1 := by
  have htb := tryBody_ok env k { a with synthetic_ratio := some r } m h hc ht hg
  refine ⟨?_, ?_, by decide⟩
  · simp only [step, htb]
  · simp only [step, htb]

theorem claim_C1_wit :
    (step envC1 0 argsStart none 0).1 =
      [Event.out (Line.ratioLabel 0),
       Event.constructCall 0 1 4 16 true,
       Event.trainCall 0 { argsStart with synthetic_ratio := some 0 } (),
       Event.out (Line.metrics 20 4 20 (mkRat 1 2) 20)] ∧
    (step envC1 0 argsStart none 0).2.2.2 = none ∧
    argmax [mkRat 1 10, mkRat 1 2, mkRat 3 10] = 1 :=
  claim_C1 envC1 0 argsStart none 0 () histC1 rfl rfl
    ⟨by decide, by decide, by decide, by decide⟩

/-- C9: when the `val_dice` sequence attains its maximum at more than one
epoch, the best-epoch index resolved by `np.argmax` is the smallest such
index: for every non-empty sequence, the resolved index is in range, its
value is maximal, and every strictly earlier value is strictly smaller. -/
theorem claim_C9 (l : List ℚ) (hne : l ≠ []) :
    argmax l < l.length ∧
    (∀ i, i < l.length → l.getD i 0 ≤ l.getD (argmax l) 0) ∧
    (∀ i, i < argmax l → l.getD i 0 < l.getD (argmax l) 0) :=
  ⟨argmax_lt_length l hne, fun i hi => getD_le_argmax l i hi,
   fun i hi => getD_lt_of_lt_argmax l i hi⟩

theorem claim_C9_wit :
    ([mkRat 1 2, mkRat 7 10, mkRat 7 10, mkRat 1 5] : List ℚ) ≠ [] ∧
    (argmax [mkRat 1 2, mkRat 7 10, mkRat 7 10, mkRat 1 5] <
      ([mkRat 1 2, mkRat 7 10, mkRat 7 10, mkRat 1 5] : List ℚ).length ∧
     (∀ i, i < ([mkRat 1 2, mkRat 7 10, mkRat 7 10, mkRat 1 5] : List ℚ).length →
       ([mkRat 1 2, mkRat 7 10, mkRat 7 10, mkRat 1 5] : List ℚ).getD i 0 ≤
         ([mkRat 1 2, mkRat 7 10, mkRat 7 10, mkRat 1 5] : List ℚ).getD
           (argmax [mkRat 1 2, mkRat 7 10, mkRat 7 10, mkRat 1 5]) 0) ∧
     (∀ i, i < argmax [mkRat 1 2, mkRat 7 10, mkRat 7 10, mkRat 1 5] →
       ([mkRat 1 2, mkRat 7 10, mkRat 7 10, mkRat 1 5] : List ℚ).getD i 0 <
         ([mkRat 1 2, mkRat 7 10, mkRat 7 10, mkRat 1 5] : List ℚ).getD
           (argmax [mkRat 1 2, mkRat 7 10, mkRat 7 10, mkRat 1 5]) 0)) :=
  ⟨by decide, claim_C9 [mkRat 1 2, mkRat 7 10, mkRat 7 10, mkRat 1 5]
    (by decide)⟩

/-- C5: when every run completes (successfully or recoverably), the driver
performs exactly one run per (channel specifier, synthetic ratio) pair —
ten runs total — in the deterministic nested order: outer axis
`["R", "RG"]` in declaration order, inner axis `[0, 1/4, 1/2, 3/4, 1]`
fully iterated beneath each outer value, with a section header printed
before each outer group.  (Stated via the trace's projection to section
headers, per-point ratio labels and model-construction calls.) -/
theorem claim_C5 {M : Type} (env : Env M) (h : NonFatal env) :
    (main env).2 = none ∧
    ((main env).1).filter isMark =
      [Event.out (Line.channelHeader "R"),
       Event.out (Line.ratioLabel 0), Event.constructCall 0 1 4 16 true,
       Event.out (Line.ratioLabel (mkRat 1 4)),
       Event.constructCall 1 1 4 16 true,
       Event.out (Line.ratioLabel (mkRat 1 2)),
       Event.constructCall 2 1 4 16 true,
       Event.out (Line.ratioLabel (mkRat 3 4)),
       Event.constructCall 3 1 4 16 true,
       Event.out (Line.ratioLabel 1), Event.constructCall 4 1 4 16 true,
       Event.out (Line.channelHeader "RG"),
       Event.out (Line.ratioLabel 0), Event.constructCall 5 2 4 16 true,
       Event.out (Line.ratioLabel (mkRat 1 4)),
       Event.constructCall 6 2 4 16 true,
       Event.out (Line.ratioLabel (mkRat 1 2)),
       Event.constructCall 7 2 4 16 true,
       Event.out (Line.ratioLabel (mkRat 3 4)),
       Event.constructCall 8 2 4 16 true,
       Event.out (Line.ratioLabel 1), Event.constructCall 9 2 4 16 true] := by
  obtain ⟨ho, hfil⟩ := main_nonfatal env h
  refine ⟨ho, ?_⟩
  rw [hfil]
  rfl

theorem claim_C5_wit :
    (main envOK).2 = none ∧
    ((main envOK).1).filter isMark =
      [Event.out (Line.channelHeader "R"),
       Event.out (Line.ratioLabel 0), Event.constructCall 0 1 4 16 true,
       Event.out (Line.ratioLabel (mkRat 1 4)),
       Event.constructCall 1 1 4 16 true,
       Event.out (Line.ratioLabel (mkRat 1 2)),
       Event.constructCall 2 1 4 16 true,
       Event.out (Line.ratioLabel (mkRat 3 4)),
       Event.constructCall 3 1 4 16 true,
       Event.out (Line.ratioLabel 1), Event.constructCall 4 1 4 16 true,
       Event.out (Line.channelHeader "RG"),
       Event.out (Line.ratioLabel 0), Event.constructCall 5 2 4 16 true,
       Event.out (Line.ratioLabel (mkRat 1 4)),
       Event.constructCall 6 2 4 16 true,
       Event.out (Line.ratioLabel (mkRat 1 2)),
       Event.constructCall 7 2 4 16 true,
       Event.out (Line.ratioLabel (mkRat 3 4)),
       Event.constructCall 8 2 4 16 true,
       Event.out (Line.ratioLabel 1), Event.constructCall 9 2 4 16 true] :=
  claim_C5 envOK nonFatal_envOK

/-- C2: if the trainer raises the resource-exhaustion error
(`RuntimeError`) at a sweep point of a sweep whose runs all complete
successfully or recoverably, the driver prints the failure-form line for
that point and proceeds: the whole sweep still executes all ten points of
both loops and `main` completes normally. -/
theorem claim_C2 {M : Type} (env : Env M) (h : NonFatal env) (k₀ : ℕ)
    (hk : k₀ < 10) (m : M) (msg : String)
    (hc : env.construct k₀ (argsAt k₀).input_channels.length 4 16 true =
      .ok m)
    (ht : env.train k₀ (argsAt k₀) m = .error (.runtimeError msg)) :
    (main env).2 = none ∧
    Event.out (Line.runtimeErrorMsg msg) ∈ (main env).1 ∧
    ((main env).1).filter isMark =
      [Event.out (Line.channelHeader "R"),
       Event.out (Line.ratioLabel 0), Event.constructCall 0 1 4 16 true,
       Event.out (Line.ratioLabel (mkRat 1 4)),
       Event.constructCall 1 1 4 16 true,
       Event.out (Line.ratioLabel (mkRat 1 2)),
       Event.constructCall 2 1 4 16 true,
       Event.out (Line.ratioLabel (mkRat 3 4)),
       Event.constructCall 3 1 4 16 true,
       Event.out (Line.ratioLabel 1), Event.constructCall 4 1 4 16 true,
       Event.out (Line.channelHeader "RG"),
       Event.out (Line.ratioLabel 0), Event.constructCall 5 2 4 16 true,
       Event.out (Line.ratioLabel (mkRat 1 4)),
       Event.constructCall 6 2 4 16 true,
       Event.out (Line.ratioLabel (mkRat 1 2)),
       Event.constructCall 7 2 4 16 true,
       Event.out (Line.ratioLabel (mkRat 3 4)),
       Event.constructCall 8 2 4 16 true,
       Event.out (Line.ratioLabel 1), Event.constructCall 9 2 4 16 true] := by
  obtain ⟨ho, hfil⟩ := main_nonfatal env h
  refine ⟨ho, ?_, by rw [hfil]; rfl⟩
  refine main_failLine env h k₀ hk msg ?_
  rw [tryBody_train_error env k₀ (argsAt k₀) m _ hc ht]

theorem claim_C2_wit :
    (main envTrainRTE).2 = none ∧
    Event.out (Line.runtimeErrorMsg "CUDA out of memory") ∈
      (main envTrainRTE).1 ∧
    ((main envTrainRTE).1).filter isMark =
      [Event.out (Line.channelHeader "R"),
       Event.out (Line.ratioLabel 0), Event.constructCall 0 1 4 16 true,
       Event.out (Line.ratioLabel (mkRat 1 4)),
       Event.constructCall 1 1 4 16 true,
       Event.out (Line.ratioLabel (mkRat 1 2)),
       Event.constructCall 2 1 4 16 true,
       Event.out (Line.ratioLabel (mkRat 3 4)),
       Event.constructCall 3 1 4 16 true,
       Event.out (Line.ratioLabel 1), Event.constructCall 4 1 4 16 true,
       Event.out (Line.channelHeader "RG"),
       Event.out (Line.ratioLabel 0), Event.constructCall 5 2 4 16 true,
       Event.out (Line.ratioLabel (mkRat 1 4)),
       Event.constructCall 6 2 4 16 true,
       Event.out (Line.ratioLabel (mkRat 1 2)),
       Event.constructCall 7 2 4 16 true,
       Event.out (Line.ratioLabel (mkRat 3 4)),
       Event.constructCall 8 2 4 16 true,
       Event.out (Line.ratioLabel 1), Event.constructCall 9 2 4 16 true] :=
  claim_C2 envTrainRTE nonFatal_envTrainRTE 0 (by decide) ()
    "CUDA out of memory" rfl rfl

/-- C10: if model construction raises a `RuntimeError` at a sweep point of
a sweep whose runs all complete successfully or recoverably, the trainer
is never invoked for that point (in particular never with a previous
point's model), the driver prints the failure-form line, and it continues:
all ten points are still executed and `main` completes normally. -/
theorem claim_C10 {M : Type} (env : Env M) (h : NonFatal env) (k₀ : ℕ)
    (hk : k₀ < 10) (msg : String)
    (hc : env.construct k₀ (argsAt k₀).input_channels.length 4 16 true =
      .error (.runtimeError msg)) :
    (main env).2 = none ∧
    (∀ (a : Arguments) (m : M), Event.trainCall k₀ a m ∉ (main env).1) ∧
    Event.out (Line.runtimeErrorMsg msg) ∈ (main env).1 ∧
    ((main env).1).filter isMark =
      [Event.out (Line.channelHeader "R"),
       Event.out (Line.ratioLabel 0), Event.constructCall 0 1 4 16 true,
       Event.out (Line.ratioLabel (mkRat 1 4)),
       Event.constructCall 1 1 4 16 true,
       Event.out (Line.ratioLabel (mkRat 1 2)),
       Event.constructCall 2 1 4 16 true,
       Event.out (Line.ratioLabel (mkRat 3 4)),
       Event.constructCall 3 1 4 16 true,
       Event.out (Line.ratioLabel 1), Event.constructCall 4 1 4 16 true,
       Event.out (Line.channelHeader "RG"),
       Event.out (Line.ratioLabel 0), Event.constructCall 5 2 4 16 true,
       Event.out (Line.ratioLabel (mkRat 1 4)),
       Event.constructCall 6 2 4 16 true,
       Event.out (Line.ratioLabel (mkRat 1 2)),
       Event.constructCall 7 2 4 16 true,
       Event.out (Line.ratioLabel (mkRat 3 4)),
       Event.constructCall 8 2 4 16 true,
       Event.out (Line.ratioLabel 1), Event.constructCall 9 2 4 16 true] := by
  obtain ⟨ho, hfil⟩ := main_nonfatal env h
  refine ⟨ho, ?_, ?_, by rw [hfil]; rfl⟩
  · intro a m hm
    obtain ⟨hcon, hcase⟩ := main_trainCall env k₀ a m hm
    rcases hcase with ⟨hk5, q, hq⟩ | ⟨hge, _, q, hq⟩
    · have hlen : a.input_channels.length = 1 := by rw [hq]; rfl
      have hlen2 : (argsAt k₀).input_channels.length = 1 := by
        rw [argsAt_lt5 k₀ hk5]
        rfl
      rw [hlen] at hcon
      rw [hlen2] at hc
      rw [hc] at hcon
      cases hcon
    · have hlen : a.input_channels.length = 2 := by rw [hq]; rfl
      have hlen2 : (argsAt k₀).input_channels.length = 2 := by
        rw [argsAt_ge5 k₀ hge hk]
        rfl
      rw [hlen] at hcon
      rw [hlen2] at hc
      rw [hc] at hcon
      cases hcon
  · refine main_failLine env h k₀ hk msg ?_
    rw [tryBody_construct_error env k₀ (argsAt k₀) _ hc]

theorem claim_C10_wit :
    (main envConstructRTE).2 = none ∧
    (∀ (a : Arguments) (m : Unit),
      Event.trainCall 3 a m ∉ (main envConstructRTE).1) ∧
    Event.out (Line.runtimeErrorMsg "CUDA out of memory") ∈
      (main envConstructRTE).1 ∧
    ((main envConstructRTE).1).filter isMark =
      [Event.out (Line.channelHeader "R"),
       Event.out (Line.ratioLabel 0), Event.constructCall 0 1 4 16 true,
       Event.out (Line.ratioLabel (mkRat 1 4)),
       Event.constructCall 1 1 4 16 true,
       Event.out (Line.ratioLabel (mkRat 1 2)),
       Event.constructCall 2 1 4 16 true,
       Event.out (Line.ratioLabel (mkRat 3 4)),
       Event.constructCall 3 1 4 16 true,
       Event.out (Line.ratioLabel 1), Event.constructCall 4 1 4 16 true,
       Event.out (Line.channelHeader "RG"),
       Event.out (Line.ratioLabel 0), Event.constructCall 5 2 4 16 true,
       Event.out (Line.ratioLabel (mkRat 1 4)),
       Event.constructCall 6 2 4 16 true,
       Event.out (Line.ratioLabel (mkRat 1 2)),
       Event.constructCall 7 2 4 16 true,
       Event.out (Line.ratioLabel (mkRat 3 4)),
       Event.constructCall 8 2 4 16 true,
       Event.out (Line.ratioLabel 1), Event.constructCall 9 2 4 16 true] :=
  claim_C10 envConstructRTE nonFatal_envConstructRTE 3 (by decide)
    "CUDA out of memory" rfl

/-- C6: every trainer invocation of the sweep uses a configuration that
agrees with the base configuration (as it stood when the sweep began) on
every field other than the two swept ones (`input_channels`,
`synthetic_ratio`); hence between any two consecutive trainer invocations
at most those two fields differ. -/
theorem claim_C6 {M : Type} (env : Env M) (k : ℕ) (a : Arguments) (m : M)
    (hm : Event.trainCall k a m ∈ (main env).1) :
    a.batch_size = 32 ∧ a.data_aug = true ∧
    a.data_dir = "/data/talabot/dataset_cv-annotated/" ∧ a.epochs = 10 ∧
    a.eval_test = false ∧ a.learning_rate = mkRat 1 1000 ∧
    a.model_dir = none ∧ a.no_gpu = false ∧ a.save_fig = false ∧
    a.scale_crop = 4 ∧ a.seed = 1 ∧ a.synthetic_data = true ∧
    a.synthetic_only = false ∧ a.timeit = false ∧ a.use_masks = false ∧
    a.verbose = false := by
  obtain ⟨_, hcase⟩ := main_trainCall env k a m hm
  rcases hcase with ⟨_, q, hq⟩ | ⟨_, _, q, hq⟩ <;>
    (subst hq;
     exact ⟨rfl, rfl, rfl, rfl, rfl, rfl, rfl, rfl, rfl, rfl, rfl, rfl,
       rfl, rfl, rfl, rfl⟩)

theorem claim_C6_wit :
    (argsAt 0).batch_size = 32 ∧ (argsAt 0).data_aug = true ∧
    (argsAt 0).data_dir = "/data/talabot/dataset_cv-annotated/" ∧
    (argsAt 0).epochs = 10 ∧
    (argsAt 0).eval_test = false ∧
    (argsAt 0).learning_rate = mkRat 1 1000 ∧
    (argsAt 0).model_dir = none ∧ (argsAt 0).no_gpu = false ∧
    (argsAt 0).save_fig = false ∧
    (argsAt 0).scale_crop = 4 ∧ (argsAt 0).seed = 1 ∧
    (argsAt 0).synthetic_data = true ∧
    (argsAt 0).synthetic_only = false ∧ (argsAt 0).timeit = false ∧
    (argsAt 0).use_masks = false ∧
    (argsAt 0).verbose = false :=
  claim_C6 envOK 0 (argsAt 0) () (by decide)

/-- C7: every trainer invocation of the sweep receives a model freshly
constructed at that same sweep point by `CustomUNet` with input-channel
count equal to the length of the configuration's input-channel specifier
(`"R"` on points `0..4`, `"RG"` on points `5..9`), depth `4`, `16`
first-stage output channels, and batch normalization enabled. -/
theorem claim_C7 {M : Type} (env : Env M) (k : ℕ) (a : Arguments) (m : M)
    (hm : Event.trainCall k a m ∈ (main env).1) :
    env.construct k a.input_channels.length 4 16 true = .ok m ∧
    k < 10 ∧
    ((k < 5 ∧ a.input_channels = "R") ∨
     (5 ≤ k ∧ a.input_channels = "RG")) := by
  obtain ⟨hc, hcase⟩ := main_trainCall env k a m hm
  rcases hcase with ⟨hk5, q, hq⟩ | ⟨hge, hlt, q, hq⟩
  · exact ⟨hc, by omega, Or.inl ⟨hk5, by rw [hq]; rfl⟩⟩
  · exact ⟨hc, hlt, Or.inr ⟨hge, by rw [hq]⟩⟩

theorem claim_C7_wit :
    envOK.construct 5 (argsAt 5).input_channels.length 4 16 true = .ok () ∧
    (5 : ℕ) < 10 ∧
    ((5 : ℕ) < 5 ∧ (argsAt 5).input_channels = "R" ∨
     (5 : ℕ) ≤ 5 ∧ (argsAt 5).input_channels = "RG") :=
  claim_C7 envOK 5 (argsAt 5) () (by decide)

/-- C3: if, at a sweep point that is reached (all earlier points behave
recoverably), the trainer raises an exception of any class other than
`RuntimeError`, the exception propagates out of `main`, the sweep
terminates, and neither the `Ending` line nor the `Script duration`
footer is printed. -/
theorem claim_C3 {M : Type} (env : Env M) (k₀ : ℕ) (hk : k₀ < 10)
    (hbef : ∀ j, j < k₀ → PointOK env j (argsAt j))
    (m : M) (e : PyErr) (hrte : isRTE e = false)
    (hc : env.construct k₀ (argsAt k₀).input_channels.length 4 16 true =
      .ok m)
    (ht : env.train k₀ (argsAt k₀) m = .error e) :
    (main env).2 = some e ∧
    Event.out Line.ending ∉ (main env).1 ∧
    ∀ x y z, Event.out (Line.durationMsg x y z) ∉ (main env).1 :=
  main_fatal env k₀ hk e hbef ⟨hrte, Or.inr ⟨m, hc, ht⟩⟩

theorem claim_C3_wit :
    (main envTrainTE).2 = some (.other "TypeError" "bad argument") ∧
    Event.out Line.ending ∉ (main envTrainTE).1 ∧
    ∀ x y z, Event.out (Line.durationMsg x y z) ∉ (main envTrainTE).1 :=
  claim_C3 envTrainTE 0 (by decide) (fun j hj => absurd hj (by omega)) ()
    (.other "TypeError" "bad argument") rfl rfl rfl

/-- C4 counterexample: the claim "every exception raised by model
construction is fatal, propagates uncaught and suppresses the duration
footer" is false on the code: the `try` block of lines 56-70 includes the
`CustomUNet(...)` call, so a `RuntimeError` raised by model construction
is caught.  In the environment whose model construction always raises
`RuntimeError`, `main` completes normally and the `Ending`/duration
footer IS printed. -/
theorem claim_C4_cex :
    (main envConstructRTE).2 = none ∧
    Event.out Line.ending ∈ (main envConstructRTE).1 := by decide

/-- C4 (amended): a model-construction error of any class OTHER than the
resource-exhaustion class (`RuntimeError`) is fatal at a reached sweep
point: it propagates uncaught out of `main`, terminates the sweep, and the
trailing `Ending`/duration summary is never printed.  (A `RuntimeError`
from model construction is instead caught like a training failure.) -/
theorem claim_C4 {M : Type} (env : Env M) (k₀ : ℕ) (hk : k₀ < 10)
    (hbef : ∀ j, j < k₀ → PointOK env j (argsAt j)) (e : PyErr)
    (hrte : isRTE e = false)
    (hc : env.construct k₀ (argsAt k₀).input_channels.length 4 16 true =
      .error e) :
    (main env).2 = some e ∧
    Event.out Line.ending ∉ (main env).1 ∧
    ∀ x y z, Event.out (Line.durationMsg x y z) ∉ (main env).1 :=
  main_fatal env k₀ hk e hbef ⟨hrte, Or.inl hc⟩

theorem claim_C4_wit :
    (main envConstructTE).2 = some (.other "TypeError" "bad argument") ∧
    Event.out Line.ending ∉ (main envConstructTE).1 ∧
    ∀ x y z, Event.out (Line.durationMsg x y z) ∉ (main envConstructTE).1 :=
  claim_C4 envConstructTE 0 (by decide) (fun j hj => absurd hj (by omega))
    (.other "TypeError" "bad argument") rfl rfl

/-- C8: on normal completion, with a monotone clock, the driver prints an
`Ending` line followed by the `Script duration` footer, whose components
decompose the non-negative elapsed duration `d = endTime - startTime` as
`hours = ⌊d / 3600⌋`, `minutes = ⌊d / 60⌋ % 60`, and
`seconds = d - 60 * ⌊d / 60⌋` (that is, `d mod 60`). -/
theorem claim_C8 {M : Type} (env : Env M) (hok : (main env).2 = none)
    (hmono : env.startTime ≤ env.endTime) :
    0 ≤ env.endTime - env.startTime ∧
    ∃ t, (main env).1 =
      t ++ [Event.out Line.ending,
        Event.out (Line.durationMsg
          ((⌊(env.endTime - env.startTime) / 3600⌋ : ℤ) : ℚ)
          ((⌊(env.endTime - env.startTime) / 60⌋ % 60 : ℤ) : ℚ)
          ((env.endTime - env.startTime) -
            60 * ((⌊(env.endTime - env.startTime) / 60⌋ : ℤ) : ℚ)))] := by
  refine ⟨by linarith, ?_⟩
  obtain ⟨t, hT⟩ := main_footer env hok
  refine ⟨t, ?_⟩
  rw [hT, pyFMod_minutes, pyFMod_eq,
    pyFloorDiv_eq_floor _ 3600 (by norm_num),
    pyFloorDiv_eq_floor _ 60 (by norm_num)]

theorem claim_C8_wit :
    0 ≤ envOK.endTime - envOK.startTime ∧
    ∃ t, (main envOK).1 =
      t ++ [Event.out Line.ending,
        Event.out (Line.durationMsg
          ((⌊(envOK.endTime - envOK.startTime) / 3600⌋ : ℤ) : ℚ)
          ((⌊(envOK.endTime - envOK.startTime) / 60⌋ % 60 : ℤ) : ℚ)
          ((envOK.endTime - envOK.startTime) -
            60 * ((⌊(envOK.endTime - envOK.startTime) / 60⌋ : ℤ) : ℚ)))] :=
  claim_C8 envOK (by decide) (by decide)

end RunGridsearch
